import Mathlib

/-!
# The `rng` wrapper of libutil (`devel/libutil/src/rng.c`)

A shallow embedding of the random-number-generator handle and of the
functions that operate on it, followed by theorems about them.

Modelling conventions.

* The handle `rng_struct` is the record `rng_type σ`, where `σ` is the type of
  the backend state behind the `void *` pointer.  A C function that mutates
  the handle in place returns the new handle.
* A backend function pointer is a Lean function.  `free_state` only releases
  memory and has no counterpart.
* `unsigned int` is a `Nat` reduced modulo `2 ^ 32`, `int` is an `Int`
  (a statement about an `int` argument bounds it by `INT_MAX`),
  `double` is idealised as exact rational arithmetic in `ℚ`.
* A `FILE *` stream of formatted integers is the list of its tokens.
* `util_abort` does not return: a function that can reach it returns in
  `Except rng_error`.  A division by zero has no result (`Option`).
-/

namespace Rng

/-! ## Machine integers -/

/-- Number of distinct values of a 32 bit `unsigned int`. -/
def UINT_RANGE : Nat := 2 ^ 32

/-- Largest value of a 32 bit `int`. -/
def INT_MAX : Int := 2 ^ 31 - 1

/-- Conversion of an `int` operand to `unsigned int` (usual arithmetic
conversions): reduction modulo `2 ^ 32`. -/
def int_to_unsigned (i : Int) : Nat := (i % (UINT_RANGE : Int)).toNat

/-- Conversion of an `unsigned int` to `int` (the return conversion of
`rng_get_int`): values above `INT_MAX` wrap around. -/
def unsigned_to_int (u : Nat) : Int :=
  if (u : Int) ≤ INT_MAX then (u : Int) else (u : Int) - (UINT_RANGE : Int)

/-! ## Data model -/

/-- The enum `rng_alg_type`; `rng_alloc` names the single enumerator `MZRAN`.
Any other integer stored in the enum is `unrecognized`. -/
inductive rng_alg_type where
  | MZRAN
  | unrecognized (code : Int)
  deriving DecidableEq, Repr

/-- The enum `rng_init_mode`, with the four enumerators used by `rng_init`
and `rng_alloc`.  Any other integer stored in the enum is `unrecognized`. -/
inductive rng_init_mode where
  | INIT_DEFAULT
  | INIT_CLOCK
  | INIT_DEV_RANDOM
  | INIT_DEV_URANDOM
  | unrecognized (code : Int)
  deriving DecidableEq, Repr

/-- The ways in which a call can end in `util_abort`. -/
inductive rng_error where
  /-- Abort of `rng_alloc`: rng type not recognized. -/
  | UnsupportedAlgorithm
  /-- Abort of `rng_init`: unrecognized init_code. -/
  | InvalidInitMode
  /-- Abort of `util_fread_dev_random` / `util_fread_dev_urandom`: cannot read. -/
  | EntropySourceUnavailable
  deriving DecidableEq, Repr

/-- The struct `rng_struct`.  The function pointers take the backend state and
return the state they leave behind.
* `forward` returns the raw value and the advanced state;
* `set_state` receives the `char *` seed buffer as a list of bytes;
* `fscanf_state` consumes tokens from the stream and returns the rest;
* `fprintf_state` returns the stream with the tokens it appended. -/
structure rng_type (σ : Type) where
  forward : σ → Nat × σ
  set_state : σ → List Nat → σ
  alloc_state : Unit → σ
  fscanf_state : σ → List Int → σ × List Int
  fprintf_state : σ → List Int → List Int
  type : rng_alg_type
  state : σ
  state_size : Int
  max_value : Nat
  inv_max : ℚ

/-! ## Operations -/

/-- The function `rng_forward`: `return rng->forward( rng->state );`.  The value returned
through the function pointer is an `unsigned int`. -/
def rng_forward {σ : Type} (rng : rng_type σ) : Nat × rng_type σ :=
  ((rng.forward rng.state).1 % UINT_RANGE,
   { rng with state := (rng.forward rng.state).2 })

/-- The function `rng_alloc__`: wires the function pointers and the constants, computes
`inv_max = 1.0 / max_value`, allocates the state and calls `rng_forward`
once, dropping its value. -/
def rng_alloc__ {σ : Type}
    (alloc_state : Unit → σ)
    (forward : σ → Nat × σ)
    (set_state : σ → List Nat → σ)
    (fscanf_state : σ → List Int → σ × List Int)
    (fprintf_state : σ → List Int → List Int)
    (type : rng_alg_type)
    (state_size : Int)
    (max_value : Nat) : rng_type σ :=
  let rng : rng_type σ :=
    { forward := forward
      set_state := set_state
      alloc_state := alloc_state
      fscanf_state := fscanf_state
      fprintf_state := fprintf_state
      type := type
      state := alloc_state ()
      state_size := state_size
      max_value := max_value
      inv_max := 1 / (max_value : ℚ) }
  (rng_forward rng).2

/-- The function `rng_get_double`: `return rng->forward( rng->state ) * rng->inv_max;`.
The product is formed in exact arithmetic, without the rounding of `double`. -/
def rng_get_double {σ : Type} (rng : rng_type σ) : ℚ × rng_type σ :=
  (((rng_forward rng).1 : ℚ) * rng.inv_max, (rng_forward rng).2)

/-- The function `rng_get_int`: `return rng->forward( rng->state ) % max_value;`.  The state
is advanced first; the `int` operand is converted to `unsigned int`, the
remainder is taken on `unsigned int` and converted to `int` on return.  A zero
divisor gives no result. -/
def rng_get_int {σ : Type} (rng : rng_type σ) (max_value : Int) :
    Option (Int × rng_type σ) :=
  let r := rng_forward rng
  if int_to_unsigned max_value = 0 then none
  else some (unsigned_to_int (r.1 % int_to_unsigned max_value), r.2)

/-- The function `rng_get_type`: `return rng->type;`. -/
def rng_get_type {σ : Type} (rng : rng_type σ) : rng_alg_type := rng.type

/-- The function `rng_fprintf_state`: `rng->fprintf_state( rng->state , stream );`.  Returns
the stream after the write. -/
def rng_fprintf_state {σ : Type} (rng : rng_type σ) (stream : List Int) : List Int :=
  rng.fprintf_state rng.state stream

/-- The function `rng_fscanf_state`: `rng->fscanf_state( rng->state , stream );`.  Returns the
handle with the state that was read and the rest of the stream. -/
def rng_fscanf_state {σ : Type} (rng : rng_type σ) (stream : List Int) :
    rng_type σ × List Int :=
  ({ rng with state := (rng.fscanf_state rng.state stream).1 },
   (rng.fscanf_state rng.state stream).2)

/-- The loop `for (int i = 0; i < n; i++) seed_buffer[i] = rng_forward( seed_src );`:
the values drawn, in draw order, and the handle the draws leave behind.  It is
also the sequence of the next `n` raw draws of a handle. -/
def rng_forward_n {σ : Type} : Nat → rng_type σ → List Nat × rng_type σ
  | 0, rng => ([], rng)
  | n + 1, rng =>
    let d := rng_forward rng
    let rest := rng_forward_n n d.2
    (d.1 :: rest.1, rest.2)

/-- What `rng_init` obtains from the platform through the helpers of `util.c`,
whose code is not embedded.
* `clock_seed i` is the value of the `i`-th call of `util_clock_seed()`;
* `dev_random` and `dev_urandom` give the `i`-th byte read from the device by
  `util_fread_dev_random` / `util_fread_dev_urandom`, and are `none` when the
  device cannot be read, in which case the call aborts. -/
structure entropy_env where
  clock_seed : Nat → Nat
  dev_random : Option (Nat → Nat)
  dev_urandom : Option (Nat → Nat)

/-- A `char` buffer of `n` bytes whose `i`-th byte is `f i` converted to
`char`. -/
def char_buffer (n : Nat) (f : Nat → Nat) : List Nat :=
  (List.range n).map (fun i => f i % 256)

/-- The `switch (init_mode)` of `rng_init`, filling the `state_size` bytes of
`seed_buffer`; the `default:` branch is `util_abort`. -/
def rng_init_seed_buffer (env : entropy_env) (state_size : Int) :
    rng_init_mode → Except rng_error (List Nat)
  | rng_init_mode.INIT_CLOCK =>
    Except.ok (char_buffer state_size.toNat env.clock_seed)
  | rng_init_mode.INIT_DEV_RANDOM =>
    match env.dev_random with
    | some f => Except.ok (char_buffer state_size.toNat f)
    | none => Except.error rng_error.EntropySourceUnavailable
  | rng_init_mode.INIT_DEV_URANDOM =>
    match env.dev_urandom with
    | some f => Except.ok (char_buffer state_size.toNat f)
    | none => Except.error rng_error.EntropySourceUnavailable
  | _ => Except.error rng_error.InvalidInitMode

/-- The function `rng_init`: fill the seed buffer as `init_mode` says, then
`rng->set_state( rng->state , seed_buffer )`. -/
def rng_init {σ : Type} (env : entropy_env) (rng : rng_type σ)
    (init_mode : rng_init_mode) : Except rng_error (rng_type σ) :=
  match rng_init_seed_buffer env rng.state_size init_mode with
  | Except.ok seed_buffer =>
    Except.ok { rng with state := rng.set_state rng.state seed_buffer }
  | Except.error e => Except.error e

/-- The number of `unsigned int` words of the seed buffer of `rng_rng_init`:
`int_size = state_size / 4` by the truncating division of C, plus one when
`int_size * 4 < byte_size`. -/
def rng_rng_init_int_size (state_size : Int) : Int :=
  let byte_size := state_size
  let int_size := Int.tdiv state_size 4
  if int_size * 4 < byte_size then int_size + 1 else int_size

/-- The cast `(char *) seed_buffer` of an `unsigned int` array: the bytes of the
words one after the other, `uint_bytes w` being the object representation of
the word `w` on the platform. -/
def uint_buffer_as_char (uint_bytes : Nat → List Nat) (seed_buffer : List Nat) :
    List Nat :=
  seed_buffer.flatMap uint_bytes

/-- The function `rng_rng_init`: draw `int_size` words from `seed_src` and hand
the buffer to `rng->set_state`.  Returns the seeded handle and the source
handle after the draws.  The two handles are distinct objects. -/
def rng_rng_init {σ τ : Type} (uint_bytes : Nat → List Nat)
    (rng : rng_type σ) (seed_src : rng_type τ) : rng_type σ × rng_type τ :=
  let int_size := rng_rng_init_int_size rng.state_size
  let drawn := rng_forward_n int_size.toNat seed_src
  ({ rng with state := rng.set_state rng.state (uint_buffer_as_char uint_bytes drawn.1) },
   drawn.2)

/-- The names of `mzran.h` that `rng_alloc` passes to `rng_alloc__`; the header
and `mzran.c` are not embedded, so they are parameters. -/
structure mzran_backend (σ : Type) where
  mzran_alloc : Unit → σ
  mzran_forward : σ → Nat × σ
  mzran_set_state : σ → List Nat → σ
  mzran_fscanf_state : σ → List Int → σ × List Int
  mzran_fprintf_state : σ → List Int → List Int
  MZRAN_STATE_SIZE : Int
  MZRAN_MAX_VALUE : Nat

/-- The function `rng_alloc`: the `switch (type)` builds the handle for `MZRAN`
and aborts for any other tag; then `rng_init` runs unless `init_mode` is
`INIT_DEFAULT`. -/
def rng_alloc {σ : Type} (mz : mzran_backend σ) (env : entropy_env)
    (type : rng_alg_type) (init_mode : rng_init_mode) :
    Except rng_error (rng_type σ) :=
  match type with
  | rng_alg_type.MZRAN =>
    let rng := rng_alloc__ mz.mzran_alloc mz.mzran_forward mz.mzran_set_state
      mz.mzran_fscanf_state mz.mzran_fprintf_state type mz.MZRAN_STATE_SIZE
      mz.MZRAN_MAX_VALUE
    if init_mode ≠ rng_init_mode.INIT_DEFAULT then rng_init env rng init_mode
    else Except.ok rng
  | _ => Except.error rng_error.UnsupportedAlgorithm

/-! ## Reference notions used in the statements -/

/-- The backend's `advance` on a state: the raw `unsigned int` it returns. -/
def advance_value {σ : Type} (forward : σ → Nat × σ) (s : σ) : Nat :=
  (forward s).1 % UINT_RANGE

/-- The backend's `advance` on a state: the state it leaves behind. -/
def advance_state {σ : Type} (forward : σ → Nat × σ) (s : σ) : σ :=
  (forward s).2

/-- The `k`-th raw output (counted from 1) of a backend iterated from the
state `s`. -/
def backend_output {σ : Type} (forward : σ → Nat × σ) (s : σ) (k : Nat) : Nat :=
  advance_value forward ((advance_state forward)^[k - 1] s)

/-- The `n` raw values a backend returns when iterated `n` times from `s`. -/
def backend_outputs {σ : Type} (forward : σ → Nat × σ) (s : σ) (n : Nat) : List Nat :=
  (List.range n).map (fun i => backend_output forward s (i + 1))

/-- Modelled from the spec: the text read/write of a backend
(`mzran_fscanf_state` and `mzran_fprintf_state` of `mzran.c` for the one
supported algorithm), whose code is missing.  The write
serialises the state as integer tokens and the read, given those tokens,
restores exactly that state, whatever state the reader held before. -/
def backend_persists {σ : Type} (fscanf_state : σ → List Int → σ × List Int)
    (fprintf_state : σ → List Int → List Int) : Prop :=
  ∀ s t : σ, (fscanf_state t (fprintf_state s [])).1 = s

/-- Modelled from the spec: the `set_state` of a backend (`mzran_set_state` of
`mzran.c` for the one supported algorithm), whose code is missing.  It
overwrites the state using the seed bytes: the state it leaves is
determined by the seed buffer alone. -/
def set_state_overwrites {σ : Type} (set_state : σ → List Nat → σ) : Prop :=
  ∀ (s t : σ) (seed_buffer : List Nat), set_state s seed_buffer = set_state t seed_buffer

/-- One operation on a handle: `rng_op rng rng'` holds when `rng'` is the handle
that a call of an operation of `rng.c` on `rng` leaves behind.  `rng_fprintf_state`
and `rng_get_type` leave the handle as it is. -/
inductive rng_op {σ : Type} (rng : rng_type σ) : rng_type σ → Prop where
  | forward : rng_op rng (rng_forward rng).2
  | get_double : rng_op rng (rng_get_double rng).2
  | get_int (max_value v : Int) (rng' : rng_type σ) :
      rng_get_int rng max_value = some (v, rng') → rng_op rng rng'
  | init (env : entropy_env) (init_mode : rng_init_mode) (rng' : rng_type σ) :
      rng_init env rng init_mode = Except.ok rng' → rng_op rng rng'
  | rng_init_target {τ : Type} (uint_bytes : Nat → List Nat) (seed_src : rng_type τ) :
      rng_op rng (rng_rng_init uint_bytes rng seed_src).1
  | rng_init_source {τ : Type} (uint_bytes : Nat → List Nat) (target : rng_type τ) :
      rng_op rng (rng_rng_init uint_bytes target rng).2
  | fscanf_state (stream : List Int) : rng_op rng (rng_fscanf_state rng stream).1
  | fprintf_state (stream : List Int) : rng_op rng rng
  | get_type : rng_op rng rng

/-- The fields of a handle that are set once, at construction. -/
def same_config {σ : Type} (a b : rng_type σ) : Prop :=
  a.state_size = b.state_size ∧ a.max_value = b.max_value ∧
    a.inv_max = b.inv_max ∧ a.type = b.type

/-! ## Toy backends

The linear congruential backend of the concrete scenario, and a one-bit
backend whose largest raw value is `1`.  They instantiate the theorems. -/

/-- The formula of the toy backend: `state * 1103515245 + 12345` modulo `2 ^ 31`. -/
def lcg_formula (state : Nat) : Nat := (state * 1103515245 + 12345) % 2 ^ 31

/-- Toy `alloc_state`: the initial state is `1`. -/
def lcg_alloc_state : Unit → Nat := fun _ => 1

/-- Toy `forward`: the state becomes `lcg_formula state`, which is returned. -/
def lcg_forward (state : Nat) : Nat × Nat := (lcg_formula state, lcg_formula state)

/-- Toy `set_state`: the seed bytes, read as a base 256 number with the first
byte least significant and reduced modulo `2 ^ 31`, replace the state. -/
def lcg_set_state (_state : Nat) (seed_buffer : List Nat) : Nat :=
  (seed_buffer.foldr (fun b acc => b % 256 + 256 * acc) 0) % 2 ^ 31

/-- Toy `fprintf_state`: one token, the state. -/
def lcg_fprintf_state (state : Nat) (stream : List Int) : List Int :=
  stream ++ [(state : Int)]

/-- Toy `fscanf_state`: one token replaces the state; an empty stream leaves it. -/
def lcg_fscanf_state (state : Nat) : List Int → Nat × List Int
  | [] => (state, [])
  | t :: rest => (t.toNat, rest)

/-- The largest raw value of the toy backend, `2 ^ 31 - 1`. -/
def LCG_MAX_VALUE : Nat := 2 ^ 31 - 1

/-- The toy handle built by the construction routine, with a state of four
bytes. -/
def lcg_rng : rng_type Nat :=
  rng_alloc__ lcg_alloc_state lcg_forward lcg_set_state lcg_fscanf_state
    lcg_fprintf_state (rng_alg_type.unrecognized 0) 4 LCG_MAX_VALUE

/-- One-bit `forward`: returns the parity of the state, which is a counter. -/
def bit_forward (state : Nat) : Nat × Nat := (state % 2, state + 1)

/-- The one-bit handle built by the construction routine: raw values `0` and
`1`, `max_value = 1`, a state of one byte, counter starting at `0`. -/
def bit_rng : rng_type Nat :=
  rng_alloc__ (fun _ => 0) bit_forward (fun _ seed_buffer => seed_buffer.headD 0)
    lcg_fscanf_state lcg_fprintf_state (rng_alg_type.unrecognized 1) 1 1

/-- Little-endian object representation of a 32 bit `unsigned int`. -/
def le_uint_bytes (w : Nat) : List Nat :=
  [w % 256, w / 256 % 256, w / 65536 % 256, w / 16777216 % 256]

/-- A handle whose backend returns the raw value `r` at the next call of
`forward`; its state carries nothing. -/
def raw_rng (r : Nat) : rng_type Unit :=
  { forward := fun _ => (r, ())
    set_state := fun _ _ => ()
    alloc_state := fun _ => ()
    fscanf_state := fun _ stream => ((), stream)
    fprintf_state := fun _ stream => stream
    type := rng_alg_type.unrecognized 3
    state := ()
    state_size := 0
    max_value := r
    inv_max := 1 / (r : ℚ) }

/-- The value `rng_get_int` returns when the backend returns the raw value `r`. -/
def next_int_of_raw (r : Nat) (max_value : Int) : Option Int :=
  (rng_get_int (raw_rng r) max_value).map Prod.fst

/-- The number of raw values `r` in `0 .. M` for which `rng_get_int` with the
given bound returns `v`. -/
def next_int_count (M : Nat) (max_value v : Int) : Nat :=
  Nat.count (fun r => next_int_of_raw r max_value = some v) (M + 1)

/-- The toy linear congruential backend in the place of the `mzran.h` names,
with a state of four bytes. -/
def lcg_backend : mzran_backend Nat :=
  { mzran_alloc := lcg_alloc_state
    mzran_forward := lcg_forward
    mzran_set_state := lcg_set_state
    mzran_fscanf_state := lcg_fscanf_state
    mzran_fprintf_state := lcg_fprintf_state
    MZRAN_STATE_SIZE := 4
    MZRAN_MAX_VALUE := LCG_MAX_VALUE }

/-- An entropy environment whose clock counts its calls and whose devices
cannot be read. -/
def clock_only_env : entropy_env :=
  { clock_seed := fun i => i
    dev_random := none
    dev_urandom := none }

/-- An entropy environment with the same clock as `clock_only_env` and readable
devices. -/
def full_env : entropy_env :=
  { clock_seed := fun i => i
    dev_random := some (fun i => 2 * i + 1)
    dev_urandom := some (fun i => 3 * i) }

/-! ## Machine-integer lemmas -/

lemma int_to_unsigned_of_pos (i : Int) (h0 : 0 < i) (h1 : i ≤ INT_MAX) :
    (int_to_unsigned i : Int) = i := by
  unfold int_to_unsigned UINT_RANGE
  unfold INT_MAX at h1
  norm_num at h1 ⊢
  omega

lemma unsigned_to_int_of_le (u : Nat) (h : (u : Int) ≤ INT_MAX) :
    unsigned_to_int u = (u : Int) := by
  unfold unsigned_to_int
  simp [h]

/-! ## Bounded integer draw -/

/-- C1: for every handle and every `int` bound greater than zero, `rng_get_int`
returns a value `i` with `0 <= i < bound`, whatever raw value the backend
produces; the division is never by zero. -/
theorem rng_get_int_in_range {σ : Type} (rng : rng_type σ) (bound : Int)
    (hpos : 0 < bound) (hmax : bound ≤ INT_MAX) :
    ∃ i rng', rng_get_int rng bound = some (i, rng') ∧ 0 ≤ i ∧ i < bound := by
  have hu := int_to_unsigned_of_pos bound hpos hmax
  have hne : int_to_unsigned bound ≠ 0 := by
    intro h0
    rw [h0] at hu
    simp at hu
    omega
  have hlt : (rng_forward rng).1 % int_to_unsigned bound < int_to_unsigned bound :=
    Nat.mod_lt _ (Nat.pos_of_ne_zero hne)
  have hlt' : (((rng_forward rng).1 % int_to_unsigned bound : Nat) : Int) < bound :=
    lt_of_lt_of_eq (Int.ofNat_lt.mpr hlt) hu
  refine ⟨unsigned_to_int ((rng_forward rng).1 % int_to_unsigned bound),
    (rng_forward rng).2, ?_, ?_, ?_⟩
  · simp [rng_get_int, hne]
  · rw [unsigned_to_int_of_le _ (by omega)]
    exact Int.natCast_nonneg _
  · rw [unsigned_to_int_of_le _ (by omega)]
    exact hlt'

/-- Instance of `rng_get_int_in_range`: the toy handle with bound `10`. -/
theorem rng_get_int_in_range_witness :
    (0 : Int) < 10 ∧ (10 : Int) ≤ INT_MAX ∧
      ∃ i rng', rng_get_int lcg_rng 10 = some (i, rng') ∧ 0 ≤ i ∧ i < 10 :=
  ⟨by decide, by decide, rng_get_int_in_range lcg_rng 10 (by decide) (by decide)⟩

/-! ## Uniform double draw -/

/-- C2, refuted as stated: the one-bit handle has `max_value = 1 > 0`, its next
raw value is `1 <= max_value`, and `rng_get_double` returns exactly `1`, which is
not below `1`. -/
theorem rng_get_double_reaches_one :
    0 < bit_rng.max_value ∧ (rng_forward bit_rng).1 ≤ bit_rng.max_value ∧
      bit_rng.inv_max = 1 / (bit_rng.max_value : ℚ) ∧
      (rng_get_double bit_rng).1 = 1 ∧ ¬ (rng_get_double bit_rng).1 < 1 := by
  have h : (rng_get_double bit_rng).1 = 1 := by
    simp [rng_get_double, rng_forward, bit_rng, rng_alloc__, bit_forward, UINT_RANGE]
  refine ⟨by decide, by decide, ?_, h, ?_⟩
  · simp [bit_rng, rng_alloc__, rng_forward]
  · rw [h]
    exact lt_irrefl 1

/-- C2, amended: for a handle constructed with `max_value > 0`, in any state
`s` whose next raw value `r` satisfies `r <= max_value`, `rng_get_double`
returns `f = r * inv_max` with `inv_max = 1 / max_value`, and `0 <= f <= 1`. -/
theorem rng_get_double_range {σ : Type}
    (alloc_state : Unit → σ) (forward : σ → Nat × σ)
    (set_state : σ → List Nat → σ)
    (fscanf_state : σ → List Int → σ × List Int)
    (fprintf_state : σ → List Int → List Int)
    (type : rng_alg_type) (state_size : Int) (max_value : Nat) (s : σ)
    (hmax : 0 < max_value) (hr : advance_value forward s ≤ max_value) :
    let rng : rng_type σ :=
      { rng_alloc__ alloc_state forward set_state fscanf_state fprintf_state
          type state_size max_value with state := s }
    let r := (rng_forward rng).1
    let f := (rng_get_double rng).1
    r = advance_value forward s ∧ rng.inv_max = 1 / (max_value : ℚ) ∧
      f = (r : ℚ) * rng.inv_max ∧ 0 ≤ f ∧ f ≤ 1 := by
  intro rng r f
  have hq : (0 : ℚ) < (max_value : ℚ) := by exact_mod_cast hmax
  have hinv : rng.inv_max = 1 / (max_value : ℚ) := rfl
  have hrv : r = advance_value forward s := rfl
  have hf : f = (r : ℚ) * rng.inv_max := rfl
  have hf' : f = (r : ℚ) / (max_value : ℚ) := by
    rw [hf, hinv, mul_one_div]
  have hrq : (r : ℚ) ≤ (max_value : ℚ) := by
    rw [hrv]
    exact_mod_cast hr
  refine ⟨hrv, hinv, hf, ?_, ?_⟩
  · rw [hf']
    exact div_nonneg (Nat.cast_nonneg r) hq.le
  · rw [hf']
    exact (div_le_one hq).mpr hrq

/-- Instance of `rng_get_double_range`: the toy handle as constructed. -/
theorem rng_get_double_range_witness :
    0 < LCG_MAX_VALUE ∧ advance_value lcg_forward (lcg_formula 1) ≤ LCG_MAX_VALUE ∧
      0 ≤ (rng_get_double lcg_rng).1 ∧ (rng_get_double lcg_rng).1 ≤ 1 :=
  ⟨by decide, by decide,
   (rng_get_double_range lcg_alloc_state lcg_forward lcg_set_state
      lcg_fscanf_state lcg_fprintf_state (rng_alg_type.unrecognized 0) 4
      LCG_MAX_VALUE (lcg_formula 1) (by decide) (by decide)).2.2.2.1,
   (rng_get_double_range lcg_alloc_state lcg_forward lcg_set_state
      lcg_fscanf_state lcg_fprintf_state (rng_alg_type.unrecognized 0) 4
      LCG_MAX_VALUE (lcg_formula 1) (by decide) (by decide)).2.2.2.2⟩

/-! ## Repeated draws -/

lemma backend_output_succ {σ : Type} (forward : σ → Nat × σ) (s : σ) (k : Nat) :
    backend_output forward s (k + 2) =
      backend_output forward (advance_state forward s) (k + 1) := by
  simp [backend_output, Function.iterate_succ_apply]

lemma backend_outputs_succ {σ : Type} (forward : σ → Nat × σ) (s : σ) (n : Nat) :
    backend_outputs forward s (n + 1) =
      advance_value forward s :: backend_outputs forward (advance_state forward s) n := by
  unfold backend_outputs
  rw [List.range_succ_eq_map, List.map_cons, List.map_map]
  refine congrArg₂ List.cons rfl (List.map_congr_left ?_)
  intro i _
  exact backend_output_succ forward s i

lemma rng_forward_n_values {σ : Type} (n : Nat) (rng : rng_type σ) :
    (rng_forward_n n rng).1 = backend_outputs rng.forward rng.state n := by
  induction n generalizing rng with
  | zero => rfl
  | succ n ih =>
    rw [backend_outputs_succ]
    simp only [rng_forward_n]
    rw [ih]
    rfl

lemma rng_forward_n_handle {σ : Type} (n : Nat) (rng : rng_type σ) :
    (rng_forward_n n rng).2 =
      { rng with state := (advance_state rng.forward)^[n] rng.state } := by
  induction n generalizing rng with
  | zero => rfl
  | succ n ih =>
    simp only [rng_forward_n]
    rw [ih, Function.iterate_succ_apply]
    rfl

/-! ## Seeding from another generator -/

lemma rng_rng_init_int_size_eq_ceil (state_size : Int) (h : 0 ≤ state_size) :
    rng_rng_init_int_size state_size = ⌈(state_size : ℚ) / 4⌉ := by
  symm
  rw [Int.ceil_eq_iff]
  have hd : Int.tdiv state_size 4 = state_size / 4 :=
    Int.tdiv_eq_ediv h (by decide)
  have key : 4 * rng_rng_init_int_size state_size - 4 < state_size ∧
      state_size ≤ 4 * rng_rng_init_int_size state_size := by
    unfold rng_rng_init_int_size
    simp only [hd]
    split_ifs <;> omega
  obtain ⟨k1, k2⟩ := key
  have k1q : (4 : ℚ) * (rng_rng_init_int_size state_size : ℚ) - 4 < (state_size : ℚ) := by
    exact_mod_cast k1
  have k2q : (state_size : ℚ) ≤ 4 * (rng_rng_init_int_size state_size : ℚ) := by
    exact_mod_cast k2
  constructor
  · rw [lt_div_iff₀ (by norm_num : (0 : ℚ) < 4)]
    linarith
  · rw [div_le_iff₀ (by norm_num : (0 : ℚ) < 4)]
    linarith

/-- C3: for a target with `state_size >= 0` and a separate source handle,
`rng_rng_init` draws `word_count = ceil(state_size / 4)` raw values from the
source, sets the target state to `set_state` of its state and the buffer of
exactly those values in draw order (entry `i` is draw `i + 1`), and leaves the
source in its initial state advanced `word_count` times. -/
theorem rng_rng_init_draws_ceil_words {σ τ : Type} (uint_bytes : Nat → List Nat)
    (rng : rng_type σ) (seed_src : rng_type τ) (hsize : 0 ≤ rng.state_size) :
    let word_count := ⌈(rng.state_size : ℚ) / 4⌉.toNat
    let buffer := backend_outputs seed_src.forward seed_src.state word_count
    buffer.length = word_count ∧
      (∀ i, i < word_count →
        buffer.get? i = some (advance_value seed_src.forward
          ((advance_state seed_src.forward)^[i] seed_src.state))) ∧
      (rng_rng_init uint_bytes rng seed_src).1.state =
        rng.set_state rng.state (uint_buffer_as_char uint_bytes buffer) ∧
      (rng_rng_init uint_bytes rng seed_src).2.state =
        (advance_state seed_src.forward)^[word_count] seed_src.state ∧
      (rng_rng_init uint_bytes rng seed_src).2 =
        (rng_forward_n word_count seed_src).2 := by
  intro word_count buffer
  have hw : (rng_rng_init_int_size rng.state_size).toNat = word_count := by
    rw [rng_rng_init_int_size_eq_ceil _ hsize]
  refine ⟨?_, ?_, ?_, ?_, ?_⟩
  · simp [buffer, backend_outputs]
  · intro i hi
    simp [buffer, backend_outputs, backend_output, hi]
  · simp only [rng_rng_init, hw, rng_forward_n_values]
  · simp only [rng_rng_init, hw, rng_forward_n_handle]
  · simp only [rng_rng_init, hw]

/-- Instance of `rng_rng_init_draws_ceil_words`: the toy handle, whose state
has four bytes, seeded from the one-bit handle draws one word. -/
theorem rng_rng_init_draws_ceil_words_witness :
    (0 : Int) ≤ lcg_rng.state_size ∧
      (rng_rng_init le_uint_bytes lcg_rng bit_rng).1.state =
        lcg_rng.set_state lcg_rng.state
          (uint_buffer_as_char le_uint_bytes
            (backend_outputs bit_rng.forward bit_rng.state
              ⌈(lcg_rng.state_size : ℚ) / 4⌉.toNat)) :=
  ⟨by decide,
   (rng_rng_init_draws_ceil_words le_uint_bytes lcg_rng bit_rng (by decide)).2.2.1⟩

/-! ## Persistence -/

lemma rng_forward_n_congr {σ : Type} (n : Nat) (a b : rng_type σ)
    (hf : a.forward = b.forward) (hs : a.state = b.state) :
    (rng_forward_n n a).1 = (rng_forward_n n b).1 := by
  rw [rng_forward_n_values, rng_forward_n_values, hf, hs]

/-- C4: when the backend's text read restores the state its text write
serialised, writing the state of a handle `h` and reading the stream into a
freshly constructed handle of the same algorithm gives a handle whose state is
the state of `h`, so that for every `N` the next `N` raw draws of both are the
same sequence; the advance made at construction leaves no trace, and the write
does not alter `h`. -/
theorem persistence_round_trip {σ : Type} (h : rng_type σ) (N : Nat)
    (hlaw : backend_persists h.fscanf_state h.fprintf_state) :
    let stream := rng_fprintf_state h []
    let fresh := rng_alloc__ h.alloc_state h.forward h.set_state h.fscanf_state
      h.fprintf_state h.type h.state_size h.max_value
    let restored := (rng_fscanf_state fresh stream).1
    restored.state = h.state ∧
      (rng_forward_n N restored).1 = (rng_forward_n N h).1 := by
  intro stream fresh restored
  have hst : restored.state = h.state := hlaw h.state fresh.state
  exact ⟨hst, rng_forward_n_congr N restored h rfl hst⟩

/-- Instance of `persistence_round_trip`: the toy handle after two draws, and
the next three draws. -/
theorem persistence_round_trip_witness :
    backend_persists lcg_fscanf_state lcg_fprintf_state ∧
      (rng_forward_n 3 (rng_fscanf_state lcg_rng
        (rng_fprintf_state (rng_forward_n 2 lcg_rng).2 [])).1).1 =
        (rng_forward_n 3 (rng_forward_n 2 lcg_rng).2).1 := by
  have hlaw : backend_persists lcg_fscanf_state lcg_fprintf_state := by
    intro s t
    simp [lcg_fscanf_state, lcg_fprintf_state]
  exact ⟨hlaw, (persistence_round_trip (rng_forward_n 2 lcg_rng).2 3 hlaw).2⟩

/-! ## The advance made at construction -/

/-- C6: the toy handle built by `rng_alloc__` returns as its first three raw
draws the second, third and fourth iterates of the formula from state `1`; and
for every backend, draw `k + 1` after construction is output `k + 2` of the
backend iterated from its allocated state, the first `n` draws being outputs
`2 .. n + 1`. -/
theorem draws_after_construction :
    (rng_forward_n 3 lcg_rng).1 =
        [lcg_formula (lcg_formula 1),
         lcg_formula (lcg_formula (lcg_formula 1)),
         lcg_formula (lcg_formula (lcg_formula (lcg_formula 1)))] ∧
      (rng_forward_n 3 lcg_rng).1 = [377401575, 662824084, 1147902781] ∧
      lcg_rng.max_value = 2 ^ 31 - 1 ∧
      ∀ (σ : Type) (alloc_state : Unit → σ) (forward : σ → Nat × σ)
        (set_state : σ → List Nat → σ)
        (fscanf_state : σ → List Int → σ × List Int)
        (fprintf_state : σ → List Int → List Int)
        (type : rng_alg_type) (state_size : Int) (max_value : Nat) (n : Nat),
        let rng := rng_alloc__ alloc_state forward set_state fscanf_state
          fprintf_state type state_size max_value
        (rng_forward_n n rng).1 = (backend_outputs forward (alloc_state ()) (n + 1)).tail ∧
          (rng_forward_n (n + 1) rng).1.get? n =
            some (backend_output forward (alloc_state ()) (n + 2)) := by
  refine ⟨by decide, by decide, by decide, ?_⟩
  intro σ alloc_state forward set_state fscanf_state fprintf_state type state_size
    max_value n rng
  have hv : ∀ m, (rng_forward_n m rng).1 =
      (backend_outputs forward (alloc_state ()) (m + 1)).tail := by
    intro m
    rw [rng_forward_n_values, backend_outputs_succ]
    rfl
  refine ⟨hv n, ?_⟩
  rw [hv (n + 1), backend_outputs_succ, List.tail_cons, backend_outputs]
  simp [backend_output_succ]

/-! ## Fields fixed at construction -/

lemma rng_init_same_config {σ : Type} (env : entropy_env) (rng rng' : rng_type σ)
    (init_mode : rng_init_mode) (h : rng_init env rng init_mode = Except.ok rng') :
    same_config rng' rng := by
  unfold rng_init at h
  cases hb : rng_init_seed_buffer env rng.state_size init_mode with
  | error e => simp [hb] at h
  | ok seed_buffer =>
    simp only [hb, Except.ok.injEq] at h
    subst h
    exact ⟨rfl, rfl, rfl, rfl⟩

lemma rng_get_int_same_config {σ : Type} (rng rng' : rng_type σ) (max_value v : Int)
    (h : rng_get_int rng max_value = some (v, rng')) : same_config rng' rng := by
  unfold rng_get_int at h
  by_cases h0 : int_to_unsigned max_value = 0
  · simp [h0] at h
  · simp only [h0, if_false, Option.some.injEq, Prod.mk.injEq] at h
    rw [← h.2]
    exact ⟨rfl, rfl, rfl, rfl⟩

lemma rng_op_same_config {σ : Type} (rng rng' : rng_type σ) (h : rng_op rng rng') :
    same_config rng' rng := by
  cases h with
  | forward => exact ⟨rfl, rfl, rfl, rfl⟩
  | get_double => exact ⟨rfl, rfl, rfl, rfl⟩
  | get_int max_value v _ hg => exact rng_get_int_same_config rng rng' max_value v hg
  | init env init_mode _ hi => exact rng_init_same_config env rng rng' init_mode hi
  | rng_init_target uint_bytes seed_src => exact ⟨rfl, rfl, rfl, rfl⟩
  | rng_init_source uint_bytes target =>
    unfold rng_rng_init
    simp only [rng_forward_n_handle]
    exact ⟨rfl, rfl, rfl, rfl⟩
  | fscanf_state stream => exact ⟨rfl, rfl, rfl, rfl⟩
  | fprintf_state stream => exact ⟨rfl, rfl, rfl, rfl⟩
  | get_type => exact ⟨rfl, rfl, rfl, rfl⟩

/-- C7: `state_size`, `max_value`, `inv_max` and the algorithm tag are invariant
after construction: a handle reached from the one `rng_alloc__` builds by any
sequence of operations (`rng_forward`, `rng_get_double`, `rng_get_int`,
`rng_init`, `rng_rng_init` as target or as source, `rng_fscanf_state`,
`rng_fprintf_state`, `rng_get_type`) has these fields as `rng_alloc__` set
them, and `rng_get_type` returns the tag given at construction. -/
theorem config_invariant_after_construction {σ : Type}
    (alloc_state : Unit → σ) (forward : σ → Nat × σ)
    (set_state : σ → List Nat → σ)
    (fscanf_state : σ → List Int → σ × List Int)
    (fprintf_state : σ → List Int → List Int)
    (type : rng_alg_type) (state_size : Int) (max_value : Nat) (h : rng_type σ)
    (hreach : Relation.ReflTransGen rng_op
      (rng_alloc__ alloc_state forward set_state fscanf_state fprintf_state
        type state_size max_value) h) :
    h.state_size = state_size ∧ h.max_value = max_value ∧
      h.inv_max = 1 / (max_value : ℚ) ∧ h.type = type ∧ rng_get_type h = type := by
  have key : same_config h (rng_alloc__ alloc_state forward set_state fscanf_state
      fprintf_state type state_size max_value) := by
    induction hreach with
    | refl => exact ⟨rfl, rfl, rfl, rfl⟩
    | tail _ hstep ih =>
      obtain ⟨a1, a2, a3, a4⟩ := rng_op_same_config _ _ hstep
      obtain ⟨b1, b2, b3, b4⟩ := ih
      exact ⟨a1.trans b1, a2.trans b2, a3.trans b3, a4.trans b4⟩
  obtain ⟨k1, k2, k3, k4⟩ := key
  exact ⟨k1, k2, k3, k4, k4⟩

/-- Instance of `config_invariant_after_construction`: the toy handle after
reseeding from the one-bit handle and one draw. -/
theorem config_invariant_after_construction_witness :
    Relation.ReflTransGen rng_op lcg_rng
        (rng_forward (rng_rng_init le_uint_bytes lcg_rng bit_rng).1).2 ∧
      (rng_forward (rng_rng_init le_uint_bytes lcg_rng bit_rng).1).2.state_size = 4 ∧
      (rng_forward (rng_rng_init le_uint_bytes lcg_rng bit_rng).1).2.max_value =
        LCG_MAX_VALUE := by
  have hreach : Relation.ReflTransGen rng_op lcg_rng
      (rng_forward (rng_rng_init le_uint_bytes lcg_rng bit_rng).1).2 :=
    Relation.ReflTransGen.tail
      (Relation.ReflTransGen.single (rng_op.rng_init_target le_uint_bytes bit_rng))
      rng_op.forward
  have h := config_invariant_after_construction lcg_alloc_state lcg_forward
    lcg_set_state lcg_fscanf_state lcg_fprintf_state (rng_alg_type.unrecognized 0) 4
    LCG_MAX_VALUE _ hreach
  exact ⟨hreach, h.1, h.2.1⟩

/-! ## Derived draws advance once -/

/-- C8: for every handle and every `int` bound greater than zero, the handle
left by `rng_get_double` and the handle left by `rng_get_int` are both the
handle left by one `rng_forward`, and the values returned are `r * inv_max` and
`r mod bound`, where `r` is the raw value `rng_forward` returns. -/
theorem derived_draws_advance_once {σ : Type} (rng : rng_type σ) (bound : Int)
    (hpos : 0 < bound) (hmax : bound ≤ INT_MAX) :
    let r := (rng_forward rng).1
    (rng_get_double rng).2 = (rng_forward rng).2 ∧
      (rng_get_double rng).1 = (r : ℚ) * rng.inv_max ∧
      rng_get_int rng bound = some ((r : Int) % bound, (rng_forward rng).2) ∧
      (rng_forward rng).2.state = advance_state rng.forward rng.state ∧
      r = advance_value rng.forward rng.state := by
  intro r
  have hu := int_to_unsigned_of_pos bound hpos hmax
  have hne : int_to_unsigned bound ≠ 0 := by
    intro h0
    rw [h0] at hu
    simp at hu
    omega
  have hmod : ((r % int_to_unsigned bound : Nat) : Int) = (r : Int) % bound := by
    rw [Int.natCast_mod, hu]
  have hlt : ((r % int_to_unsigned bound : Nat) : Int) < bound :=
    lt_of_lt_of_eq (Int.ofNat_lt.mpr (Nat.mod_lt _ (Nat.pos_of_ne_zero hne))) hu
  refine ⟨rfl, rfl, ?_, rfl, rfl⟩
  simp only [rng_get_int, hne, if_false]
  rw [unsigned_to_int_of_le _ (le_of_lt (lt_of_lt_of_le hlt hmax)), hmod]

/-- Instance of `derived_draws_advance_once`: the toy handle with bound `10`. -/
theorem derived_draws_advance_once_witness :
    (0 : Int) < 10 ∧ (10 : Int) ≤ INT_MAX ∧
      rng_get_int lcg_rng 10 = some (5, (rng_forward lcg_rng).2) :=
  ⟨by decide, by decide,
   (derived_draws_advance_once lcg_rng 10 (by decide) (by decide)).2.2.1⟩

/-! ## Determinism of seeding from another generator -/

/-- C9: `rng_rng_init` is deterministic.  In two runs whose sources start in
the same state of the same backend, and whose targets have the same `set_state`
and `state_size`, the source ends in the same state in both runs and the seed
buffer is the same; the target ends in the same state in both runs when the
targets start in the same state, and also when they do not, as long as
`set_state` overwrites the state. -/
theorem rng_rng_init_deterministic {σ τ : Type} (uint_bytes : Nat → List Nat)
    (rng1 rng2 : rng_type σ) (src1 src2 : rng_type τ)
    (hforward : src1.forward = src2.forward) (hstate : src1.state = src2.state)
    (hset : rng1.set_state = rng2.set_state)
    (hsize : rng1.state_size = rng2.state_size)
    (htarget : rng1.state = rng2.state ∨ set_state_overwrites rng1.set_state) :
    (rng_rng_init uint_bytes rng1 src1).1.state =
        (rng_rng_init uint_bytes rng2 src2).1.state ∧
      (rng_rng_init uint_bytes rng1 src1).2.state =
        (rng_rng_init uint_bytes rng2 src2).2.state := by
  constructor
  · simp only [rng_rng_init, rng_forward_n_values, hforward, hstate, hsize, ← hset]
    rcases htarget with heq | hover
    · rw [heq]
    · exact hover _ _ _
  · simp only [rng_rng_init, rng_forward_n_handle, hforward, hstate, hsize]

/-- Instance of `rng_rng_init_deterministic`: two toy targets in different
states, each seeded from the one-bit handle. -/
theorem rng_rng_init_deterministic_witness :
    set_state_overwrites lcg_rng.set_state ∧
      lcg_rng.state ≠ (rng_forward lcg_rng).2.state ∧
      (rng_rng_init le_uint_bytes lcg_rng bit_rng).1.state =
        (rng_rng_init le_uint_bytes (rng_forward lcg_rng).2 bit_rng).1.state := by
  have hover : set_state_overwrites lcg_rng.set_state := fun _ _ _ => rfl
  exact ⟨hover, by decide,
    (rng_rng_init_deterministic le_uint_bytes lcg_rng (rng_forward lcg_rng).2
      bit_rng bit_rng rfl rfl rfl rfl (Or.inr hover)).1⟩

/-! ## Construction -/

/-- C10: `rng_alloc` fails with `UnsupportedAlgorithm` for every tag other than
`MZRAN`, whatever the init mode and the entropy sources, so that no handle is
returned and the seeding is never reached; for `MZRAN` it never fails that way,
with `INIT_DEFAULT` it returns the handle `rng_alloc__` builds, with
`INIT_CLOCK`, and with a device mode whose device can be read, it returns a
handle, and every handle it returns has the function pointers and constants of
the backend, the tag `MZRAN` and `inv_max = 1 / max_value`. -/
theorem rng_alloc_unsupported_algorithm {σ : Type} (mz : mzran_backend σ)
    (env : entropy_env) :
    (∀ (code : Int) (init_mode : rng_init_mode),
        rng_alloc mz env (rng_alg_type.unrecognized code) init_mode =
          Except.error rng_error.UnsupportedAlgorithm) ∧
      rng_alloc mz env rng_alg_type.MZRAN rng_init_mode.INIT_DEFAULT =
        Except.ok (rng_alloc__ mz.mzran_alloc mz.mzran_forward mz.mzran_set_state
          mz.mzran_fscanf_state mz.mzran_fprintf_state rng_alg_type.MZRAN
          mz.MZRAN_STATE_SIZE mz.MZRAN_MAX_VALUE) ∧
      (∃ h, rng_alloc mz env rng_alg_type.MZRAN rng_init_mode.INIT_CLOCK = Except.ok h) ∧
      (∀ f : Nat → Nat, ∃ h, rng_alloc mz { env with dev_random := some f }
        rng_alg_type.MZRAN rng_init_mode.INIT_DEV_RANDOM = Except.ok h) ∧
      (∀ f : Nat → Nat, ∃ h, rng_alloc mz { env with dev_urandom := some f }
        rng_alg_type.MZRAN rng_init_mode.INIT_DEV_URANDOM = Except.ok h) ∧
      ∀ init_mode : rng_init_mode,
        match rng_alloc mz env rng_alg_type.MZRAN init_mode with
        | Except.ok h =>
          h.forward = mz.mzran_forward ∧ h.set_state = mz.mzran_set_state ∧
            h.alloc_state = mz.mzran_alloc ∧
            h.fscanf_state = mz.mzran_fscanf_state ∧
            h.fprintf_state = mz.mzran_fprintf_state ∧
            h.type = rng_alg_type.MZRAN ∧ h.state_size = mz.MZRAN_STATE_SIZE ∧
            h.max_value = mz.MZRAN_MAX_VALUE ∧
            h.inv_max = 1 / (mz.MZRAN_MAX_VALUE : ℚ)
        | Except.error e => e ≠ rng_error.UnsupportedAlgorithm := by
  refine ⟨fun _ _ => rfl, by simp [rng_alloc], ?_, ?_, ?_, ?_⟩
  · exact ⟨_, by simp [rng_alloc, rng_init, rng_init_seed_buffer]; rfl⟩
  · intro f
    exact ⟨_, by simp [rng_alloc, rng_init, rng_init_seed_buffer]; rfl⟩
  · intro f
    exact ⟨_, by simp [rng_alloc, rng_init, rng_init_seed_buffer]; rfl⟩
  · intro init_mode
    cases init_mode with
    | INIT_DEFAULT => simp [rng_alloc, rng_alloc__, rng_forward]
    | INIT_CLOCK => simp [rng_alloc, rng_init, rng_init_seed_buffer, rng_alloc__, rng_forward]
    | INIT_DEV_RANDOM =>
      cases hd : env.dev_random <;>
        simp [rng_alloc, rng_init, rng_init_seed_buffer, rng_alloc__, rng_forward, hd]
    | INIT_DEV_URANDOM =>
      cases hd : env.dev_urandom <;>
        simp [rng_alloc, rng_init, rng_init_seed_buffer, rng_alloc__, rng_forward, hd]
    | unrecognized code =>
      simp [rng_alloc, rng_init, rng_init_seed_buffer]

/-! ## Seeding from the platform -/

/-- C11: `rng_init` called with a mode that is none of `INIT_CLOCK`,
`INIT_DEV_RANDOM`, `INIT_DEV_URANDOM` ends in the abort `InvalidInitMode`,
whatever the entropy sources; the abort is raised by the `switch`, before the
call of `set_state`, so that no state is set: the outcome is the same whatever
function the handle has as `set_state`, and no handle with a new state is
returned. -/
theorem rng_init_invalid_mode {σ : Type} (env : entropy_env) (rng : rng_type σ)
    (init_mode : rng_init_mode)
    (hclock : init_mode ≠ rng_init_mode.INIT_CLOCK)
    (hrandom : init_mode ≠ rng_init_mode.INIT_DEV_RANDOM)
    (hurandom : init_mode ≠ rng_init_mode.INIT_DEV_URANDOM) :
    rng_init env rng init_mode = Except.error rng_error.InvalidInitMode ∧
      rng_init_seed_buffer env rng.state_size init_mode =
        Except.error rng_error.InvalidInitMode ∧
      (∀ set_state : σ → List Nat → σ,
        rng_init env { rng with set_state := set_state } init_mode =
          Except.error rng_error.InvalidInitMode) ∧
      ∀ rng' : rng_type σ, rng_init env rng init_mode ≠ Except.ok rng' := by
  have hbuf : ∀ size : Int, rng_init_seed_buffer env size init_mode =
      Except.error rng_error.InvalidInitMode := by
    intro size
    cases init_mode with
    | INIT_DEFAULT => rfl
    | INIT_CLOCK => exact absurd rfl hclock
    | INIT_DEV_RANDOM => exact absurd rfl hrandom
    | INIT_DEV_URANDOM => exact absurd rfl hurandom
    | unrecognized code => rfl
  have hinit : ∀ r : rng_type σ,
      rng_init env r init_mode = Except.error rng_error.InvalidInitMode := by
    intro r
    simp only [rng_init, hbuf]
  refine ⟨hinit rng, hbuf _, fun _ => hinit _, ?_⟩
  intro rng' hok
  rw [hinit rng] at hok
  cases hok

/-- Instance of `rng_init_invalid_mode`: the toy handle and an enum value
outside the enumerators. -/
theorem rng_init_invalid_mode_witness :
    rng_init_mode.unrecognized 7 ≠ rng_init_mode.INIT_CLOCK ∧
      rng_init_mode.unrecognized 7 ≠ rng_init_mode.INIT_DEV_RANDOM ∧
      rng_init_mode.unrecognized 7 ≠ rng_init_mode.INIT_DEV_URANDOM ∧
      rng_init ⟨fun i => i, none, none⟩ lcg_rng (rng_init_mode.unrecognized 7) =
        Except.error rng_error.InvalidInitMode :=
  ⟨by decide, by decide, by decide,
   (rng_init_invalid_mode ⟨fun i => i, none, none⟩ lcg_rng
      (rng_init_mode.unrecognized 7) (by decide) (by decide) (by decide)).1⟩

/-! ## Modulo bias of the bounded integer draw -/

lemma count_congr_below (p q : Nat → Prop) [DecidablePred p] [DecidablePred q]
    (n : Nat) (h : ∀ r, r < n → (p r ↔ q r)) : Nat.count p n = Nat.count q n := by
  induction n with
  | zero => simp
  | succ n ih =>
    rw [Nat.count_succ, Nat.count_succ, ih (fun r hr => h r (Nat.lt_succ_of_lt hr))]
    congr 1
    exact if_congr (h n (Nat.lt_succ_self n)) rfl rfl

lemma count_mod_eq (b n v : Nat) (hb : 0 < b) (hv : v < b) :
    Nat.count (fun r => r % b = v) n = n / b + if v < n % b then 1 else 0 := by
  have h := Nat.count_modEq_card n hb v
  rw [Nat.mod_eq_of_lt hv] at h
  rw [← h]
  exact count_congr_below _ _ n
    (fun r _ => by simp only [Nat.ModEq, Nat.mod_eq_of_lt hv])

lemma rng_get_int_value {σ : Type} (rng : rng_type σ) (bound : Int)
    (hpos : 0 < bound) (hmax : bound ≤ INT_MAX) :
    (rng_get_int rng bound).map Prod.fst =
      some ((((rng_forward rng).1 % bound.toNat : Nat) : Int)) := by
  have hu := int_to_unsigned_of_pos bound hpos hmax
  have hnat : int_to_unsigned bound = bound.toNat := by omega
  have hne : bound.toNat ≠ 0 := by omega
  have hlt : (rng_forward rng).1 % bound.toNat < bound.toNat :=
    Nat.mod_lt _ (Nat.pos_of_ne_zero hne)
  simp only [rng_get_int, hnat, hne, if_false, Option.map_some']
  rw [unsigned_to_int_of_le _ (by omega)]

lemma next_int_of_raw_eq (r : Nat) (bound : Int) (hpos : 0 < bound)
    (hmax : bound ≤ INT_MAX) (hr : r < UINT_RANGE) :
    next_int_of_raw r bound = some (((r % bound.toNat : Nat) : Int)) := by
  unfold next_int_of_raw
  rw [rng_get_int_value _ bound hpos hmax]
  simp [rng_forward, raw_rng, Nat.mod_eq_of_lt hr]

lemma next_int_count_nat (M : Nat) (bound v : Int) (hpos : 0 < bound)
    (hmax : bound ≤ INT_MAX) (hM : M < UINT_RANGE) (hv0 : 0 ≤ v) (hv : v < bound) :
    next_int_count M bound v =
      (M + 1) / bound.toNat + if v.toNat < (M + 1) % bound.toNat then 1 else 0 := by
  unfold next_int_count
  rw [← count_mod_eq bound.toNat (M + 1) v.toNat (by omega) (by omega)]
  apply count_congr_below
  intro r hr
  rw [next_int_of_raw_eq r bound hpos hmax (by omega)]
  simp only [Option.some.injEq]
  omega

lemma next_int_count_int (M : Nat) (bound v : Int) (hpos : 0 < bound)
    (hmax : bound ≤ INT_MAX) (hM : M < UINT_RANGE) (hv0 : 0 ≤ v) (hv : v < bound) :
    (next_int_count M bound v : Int) =
      ((M : Int) + 1) / bound + if v < ((M : Int) + 1) % bound then 1 else 0 := by
  have hb : ((bound.toNat : Nat) : Int) = bound := Int.toNat_of_nonneg hpos.le
  have hq : ((((M + 1) / bound.toNat : Nat)) : Int) = ((M : Int) + 1) / bound := by
    rw [Int.natCast_div, hb]
    rfl
  have hrem : ((((M + 1) % bound.toNat : Nat)) : Int) = ((M : Int) + 1) % bound := by
    rw [Int.natCast_mod, hb]
    rfl
  rw [next_int_count_nat M bound v hpos hmax hM hv0 hv, Nat.cast_add, hq, ← hrem]
  congr 1
  by_cases hlt : v.toNat < (M + 1) % bound.toNat
  · have hlt' : v < (((M + 1) % bound.toNat : Nat) : Int) := by omega
    rw [if_pos hlt, if_pos hlt']
    rfl
  · have hlt' : ¬ v < (((M + 1) % bound.toNat : Nat) : Int) := by omega
    rw [if_neg hlt, if_neg hlt']
    rfl

/-- C12: modulo bias of `rng_get_int`.  For a bound in `1 .. INT_MAX` and a
largest raw value `M` of the `unsigned int` range, among the raw values
`0 .. M` each result `v` of `[0, bound)` is produced by `(M + 1) / bound` raw
values, or by one more, the larger count occurring exactly for
`v < (M + 1) mod bound`; the counts are all equal iff `bound` divides `M + 1`,
and otherwise the values below `(M + 1) mod bound` are drawn once more than
the others.  The value counted is the one `rng_get_int` returns on any handle
whose backend returns that raw value. -/
theorem next_int_modulo_bias (M : Nat) (bound : Int) (hpos : 0 < bound)
    (hmax : bound ≤ INT_MAX) (hM : M < UINT_RANGE) :
    (∀ v : Int, 0 ≤ v → v < bound →
        (next_int_count M bound v : Int) =
          ((M : Int) + 1) / bound + if v < ((M : Int) + 1) % bound then 1 else 0) ∧
      (∀ v : Int, 0 ≤ v → v < bound →
        ((next_int_count M bound v : Int) = ((M : Int) + 1) / bound + 1 ↔
          v < ((M : Int) + 1) % bound)) ∧
      ((∀ v w : Int, 0 ≤ v → v < bound → 0 ≤ w → w < bound →
          next_int_count M bound v = next_int_count M bound w) ↔
        bound ∣ (M : Int) + 1) ∧
      (∀ v w : Int, 0 ≤ v → v < ((M : Int) + 1) % bound →
          ((M : Int) + 1) % bound ≤ w → w < bound →
          next_int_count M bound v = next_int_count M bound w + 1) ∧
      ∀ (σ : Type) (rng : rng_type σ),
        (rng_get_int rng bound).map Prod.fst =
          next_int_of_raw (rng.forward rng.state).1 bound := by
  have hrem0 : 0 ≤ ((M : Int) + 1) % bound := Int.emod_nonneg _ (ne_of_gt hpos)
  have hremlt : ((M : Int) + 1) % bound < bound := Int.emod_lt_of_pos _ hpos
  have hcount := fun v hv0 hv => next_int_count_int M bound v hpos hmax hM hv0 hv
  refine ⟨hcount, ?_, ?_, ?_, ?_⟩
  · intro v hv0 hv
    rw [hcount v hv0 hv]
    split_ifs with hlt
    · simp [hlt]
    · simp [hlt]
  · constructor
    · intro hall
      by_contra hdvd
      have hne : ((M : Int) + 1) % bound ≠ 0 := fun h0 =>
        hdvd (Int.dvd_of_emod_eq_zero h0)
      have hrpos : 0 < ((M : Int) + 1) % bound := lt_of_le_of_ne hrem0 (Ne.symm hne)
      have h0 := hcount 0 le_rfl hpos
      have h1 := hcount (bound - 1) (by omega) (by omega)
      have heq := hall 0 (bound - 1) le_rfl hpos (by omega) (by omega)
      rw [if_pos hrpos] at h0
      rw [if_neg (by omega)] at h1
      rw [heq] at h0
      omega
    · intro hdvd v w hv0 hv hw0 hw
      have h0 : ((M : Int) + 1) % bound = 0 := Int.emod_eq_zero_of_dvd hdvd
      have hv' := hcount v hv0 hv
      have hw' := hcount w hw0 hw
      rw [h0, if_neg (by omega)] at hv' hw'
      omega
  · intro v w hv0 hv hw hwb
    have hv' := hcount v hv0 (lt_trans hv hremlt)
    have hw' := hcount w (le_trans hrem0 hw) hwb
    rw [if_pos hv] at hv'
    rw [if_neg (by omega)] at hw'
    omega
  · intro σ rng
    rw [rng_get_int_value rng bound hpos hmax]
    unfold next_int_of_raw
    rw [rng_get_int_value _ bound hpos hmax]
    simp [rng_forward, raw_rng]

/-- Instance of `next_int_modulo_bias`: with `M = 9` and bound `4`, the results
`0` and `1` are produced by three raw values, `2` and `3` by two. -/
theorem next_int_modulo_bias_witness :
    (0 : Int) < 4 ∧ (4 : Int) ≤ INT_MAX ∧ 9 < UINT_RANGE ∧
      next_int_count 9 4 0 = next_int_count 9 4 2 + 1 ∧
      next_int_count 9 4 0 = 3 ∧ next_int_count 9 4 3 = 2 :=
  ⟨by decide, by decide, by decide,
   (next_int_modulo_bias 9 4 (by decide) (by decide) (by decide)).2.2.2.1 0 2
      (by decide) (by decide) (by decide) (by decide),
   by decide, by decide⟩

/-! ## Seeding is a function of the seed bytes -/

lemma rng_init_of_seed_buffer {σ : Type} (env : entropy_env) (rng : rng_type σ)
    (init_mode : rng_init_mode) (seed_buffer : List Nat)
    (h : rng_init_seed_buffer env rng.state_size init_mode = Except.ok seed_buffer) :
    rng_init env rng init_mode =
      Except.ok { rng with state := rng.set_state rng.state seed_buffer } := by
  simp only [rng_init, h]

/-- C13: the state `rng_init` leaves is a function of the seed bytes only.  Two
handles constructed independently by `rng_alloc__` for the same algorithm and
seeded with the same mode, in two environments that fill the seed buffer with
the same `state_size` bytes, both end in the state `set_state` gives for that
buffer, and every sequence of raw draws that follows is the same for both.  The
same holds for two handles of that algorithm in any two states when
`set_state` overwrites the state. -/
theorem rng_init_function_of_seed_bytes {σ : Type}
    (alloc_state : Unit → σ) (forward : σ → Nat × σ)
    (set_state : σ → List Nat → σ)
    (fscanf_state : σ → List Int → σ × List Int)
    (fprintf_state : σ → List Int → List Int)
    (type : rng_alg_type) (state_size : Int) (max_value : Nat)
    (env1 env2 : entropy_env) (init_mode : rng_init_mode) (seed_buffer : List Nat)
    (h1 : rng_init_seed_buffer env1 state_size init_mode = Except.ok seed_buffer)
    (h2 : rng_init_seed_buffer env2 state_size init_mode = Except.ok seed_buffer) :
    let a := rng_alloc__ alloc_state forward set_state fscanf_state fprintf_state
      type state_size max_value
    let b := rng_alloc__ alloc_state forward set_state fscanf_state fprintf_state
      type state_size max_value
    (∃ a' b', rng_init env1 a init_mode = Except.ok a' ∧
        rng_init env2 b init_mode = Except.ok b' ∧
        a'.state = set_state a.state seed_buffer ∧ a'.state = b'.state ∧
        ∀ N, (rng_forward_n N a').1 = (rng_forward_n N b').1) ∧
      (set_state_overwrites set_state → ∀ s t : σ,
        ∃ a' b', rng_init env1 { a with state := s } init_mode = Except.ok a' ∧
          rng_init env2 { b with state := t } init_mode = Except.ok b' ∧
          a'.state = b'.state ∧
          ∀ N, (rng_forward_n N a').1 = (rng_forward_n N b').1) := by
  intro a b
  constructor
  · refine ⟨{ a with state := a.set_state a.state seed_buffer },
      { b with state := b.set_state b.state seed_buffer },
      rng_init_of_seed_buffer env1 a init_mode seed_buffer h1,
      rng_init_of_seed_buffer env2 b init_mode seed_buffer h2, rfl, rfl, ?_⟩
    intro N
    rfl
  · intro hover s t
    refine ⟨{ a with state := set_state s seed_buffer },
      { b with state := set_state t seed_buffer },
      rng_init_of_seed_buffer env1 { a with state := s } init_mode seed_buffer h1,
      rng_init_of_seed_buffer env2 { b with state := t } init_mode seed_buffer h2,
      hover s t seed_buffer, ?_⟩
    intro N
    exact rng_forward_n_congr N _ _ rfl (hover s t seed_buffer)

/-- Instance of `rng_init_function_of_seed_bytes`: the toy handle seeded from
the clock in two environments that differ in their devices. -/
theorem rng_init_function_of_seed_bytes_witness :
    rng_init_seed_buffer clock_only_env 4 rng_init_mode.INIT_CLOCK =
        Except.ok [0, 1, 2, 3] ∧
      rng_init_seed_buffer full_env 4 rng_init_mode.INIT_CLOCK =
        Except.ok [0, 1, 2, 3] ∧
      ∃ a' b', rng_init clock_only_env lcg_rng rng_init_mode.INIT_CLOCK = Except.ok a' ∧
        rng_init full_env lcg_rng rng_init_mode.INIT_CLOCK = Except.ok b' ∧
        a'.state = lcg_set_state lcg_rng.state [0, 1, 2, 3] ∧ a'.state = b'.state ∧
        ∀ N, (rng_forward_n N a').1 = (rng_forward_n N b').1 :=
  ⟨rfl, rfl,
   (rng_init_function_of_seed_bytes lcg_alloc_state lcg_forward lcg_set_state
      lcg_fscanf_state lcg_fprintf_state (rng_alg_type.unrecognized 0) 4
      LCG_MAX_VALUE clock_only_env full_env rng_init_mode.INIT_CLOCK [0, 1, 2, 3]
      rfl rfl).1⟩

/-! ## Order of construction and seeding -/

/-- C14: construction order in `rng_alloc` for `MZRAN`.  The handle built by
`rng_alloc__` has the state of `alloc_state` advanced once.  With
`INIT_DEFAULT` that handle is returned as it is, whatever the entropy sources,
so the seeding is not run.  With any other mode the result is that of one call
of `rng_init` on that handle, after the advance; when the seed buffer is
filled, the handle returned has the state `set_state` gives for the
once-advanced state and the seed buffer. -/
theorem rng_alloc_construction_order {σ : Type} (mz : mzran_backend σ)
    (env : entropy_env) :
    let built := rng_alloc__ mz.mzran_alloc mz.mzran_forward mz.mzran_set_state
      mz.mzran_fscanf_state mz.mzran_fprintf_state rng_alg_type.MZRAN
      mz.MZRAN_STATE_SIZE mz.MZRAN_MAX_VALUE
    built.state = advance_state mz.mzran_forward (mz.mzran_alloc ()) ∧
      (∀ env' : entropy_env,
        rng_alloc mz env' rng_alg_type.MZRAN rng_init_mode.INIT_DEFAULT =
          Except.ok built) ∧
      (∀ init_mode : rng_init_mode, init_mode ≠ rng_init_mode.INIT_DEFAULT →
        rng_alloc mz env rng_alg_type.MZRAN init_mode = rng_init env built init_mode) ∧
      ∀ (init_mode : rng_init_mode) (seed_buffer : List Nat),
        init_mode ≠ rng_init_mode.INIT_DEFAULT →
        rng_init_seed_buffer env mz.MZRAN_STATE_SIZE init_mode = Except.ok seed_buffer →
        ∃ h, rng_alloc mz env rng_alg_type.MZRAN init_mode = Except.ok h ∧
          h.state = mz.mzran_set_state
            (advance_state mz.mzran_forward (mz.mzran_alloc ())) seed_buffer := by
  intro built
  have hmode : ∀ init_mode : rng_init_mode, init_mode ≠ rng_init_mode.INIT_DEFAULT →
      rng_alloc mz env rng_alg_type.MZRAN init_mode = rng_init env built init_mode := by
    intro init_mode hne
    simp only [rng_alloc, ne_eq, hne, not_false_eq_true, if_true]
  refine ⟨rfl, ?_, hmode, ?_⟩
  · intro env'
    simp only [rng_alloc, ne_eq, not_true_eq_false, if_false]
  · intro init_mode seed_buffer hne hbuf
    refine ⟨{ built with state := built.set_state built.state seed_buffer }, ?_, rfl⟩
    rw [hmode init_mode hne]
    exact rng_init_of_seed_buffer env built init_mode seed_buffer hbuf

/-- Instance of `rng_alloc_construction_order`: the toy backend seeded from a
readable device. -/
theorem rng_alloc_construction_order_witness :
    rng_init_mode.INIT_DEV_RANDOM ≠ rng_init_mode.INIT_DEFAULT ∧
      rng_init_seed_buffer full_env lcg_backend.MZRAN_STATE_SIZE
        rng_init_mode.INIT_DEV_RANDOM = Except.ok [1, 3, 5, 7] ∧
      ∃ h, rng_alloc lcg_backend full_env rng_alg_type.MZRAN
          rng_init_mode.INIT_DEV_RANDOM = Except.ok h ∧
        h.state = lcg_backend.mzran_set_state
          (advance_state lcg_backend.mzran_forward (lcg_backend.mzran_alloc ()))
          [1, 3, 5, 7] :=
  ⟨by decide, rfl,
   (rng_alloc_construction_order lcg_backend full_env).2.2.2
      rng_init_mode.INIT_DEV_RANDOM [1, 3, 5, 7] (by decide) rfl⟩

/-! ## Size of the seed buffer drawn from another generator -/

lemma rng_forward_n_length {σ : Type} (n : Nat) (rng : rng_type σ) :
    (rng_forward_n n rng).1.length = n := by
  rw [rng_forward_n_values]
  simp [backend_outputs]

lemma uint_buffer_as_char_length (uint_bytes : Nat → List Nat)
    (hbytes : ∀ w, (uint_bytes w).length = 4) (seed_buffer : List Nat) :
    (uint_buffer_as_char uint_bytes seed_buffer).length = 4 * seed_buffer.length := by
  unfold uint_buffer_as_char
  induction seed_buffer with
  | nil => rfl
  | cons w ws ih =>
    rw [List.flatMap_cons, List.length_append, ih, hbytes, List.length_cons]
    omega

/-- C15: the seed buffer of `rng_rng_init` covers the state.  For
`state_size >= 0` the word count `n`, the truncating quotient `state_size / 4`
plus one when four times the quotient is below `state_size`, satisfies
`state_size <= 4 * n < state_size + 4`; with words of four bytes the buffer
handed to `set_state` has `4 * n` bytes, so at least `state_size` and at most
three more; and for `state_size = 0` nothing is drawn, the source is left as it
was and `set_state` receives the empty buffer. -/
theorem rng_rng_init_buffer_covers_state {σ τ : Type} (uint_bytes : Nat → List Nat)
    (rng : rng_type σ) (seed_src : rng_type τ) (hsize : 0 ≤ rng.state_size)
    (hbytes : ∀ w, (uint_bytes w).length = 4) :
    let n := rng_rng_init_int_size rng.state_size
    let seed_buffer := uint_buffer_as_char uint_bytes (rng_forward_n n.toNat seed_src).1
    n = Int.tdiv rng.state_size 4 +
        (if Int.tdiv rng.state_size 4 * 4 < rng.state_size then 1 else 0) ∧
      0 ≤ n ∧ rng.state_size ≤ 4 * n ∧ 4 * n < rng.state_size + 4 ∧
      (seed_buffer.length : Int) = 4 * n ∧
      rng.state_size ≤ (seed_buffer.length : Int) ∧
      (seed_buffer.length : Int) - rng.state_size ≤ 3 ∧
      (rng_rng_init uint_bytes rng seed_src).1.state =
        rng.set_state rng.state seed_buffer ∧
      (rng.state_size = 0 →
        n = 0 ∧ seed_buffer = [] ∧
          (rng_rng_init uint_bytes rng seed_src).2 = seed_src) := by
  intro n seed_buffer
  have hd : Int.tdiv rng.state_size 4 = rng.state_size / 4 :=
    Int.tdiv_eq_ediv hsize (by decide)
  have hn : n = Int.tdiv rng.state_size 4 +
      (if Int.tdiv rng.state_size 4 * 4 < rng.state_size then 1 else 0) := by
    show rng_rng_init_int_size rng.state_size = _
    unfold rng_rng_init_int_size
    simp only []
    split_ifs <;> simp
  have hbounds : 0 ≤ n ∧ rng.state_size ≤ 4 * n ∧ 4 * n < rng.state_size + 4 := by
    rw [hn, hd]
    split_ifs <;> omega
  obtain ⟨hn0, hlow, hhigh⟩ := hbounds
  have hlen : (seed_buffer.length : Int) = 4 * n := by
    show ((uint_buffer_as_char uint_bytes (rng_forward_n n.toNat seed_src).1).length : Int) = _
    rw [uint_buffer_as_char_length uint_bytes hbytes, rng_forward_n_length]
    omega
  refine ⟨hn, hn0, hlow, hhigh, hlen, by omega, by omega, rfl, ?_⟩
  intro hzero
  have hnz : n = 0 := by omega
  have hseed : seed_buffer = [] := by
    apply List.eq_nil_of_length_eq_zero
    omega
  refine ⟨hnz, hseed, ?_⟩
  show (rng_forward_n (rng_rng_init_int_size rng.state_size).toNat seed_src).2 = seed_src
  have hnz' : rng_rng_init_int_size rng.state_size = 0 := hnz
  rw [hnz']
  rfl

/-- Instance of `rng_rng_init_buffer_covers_state`: the toy handle, whose state
has four bytes, seeded from the one-bit handle with little-endian words. -/
theorem rng_rng_init_buffer_covers_state_witness :
    (0 : Int) ≤ lcg_rng.state_size ∧ (∀ w, (le_uint_bytes w).length = 4) ∧
      lcg_rng.state_size ≤ 4 * rng_rng_init_int_size lcg_rng.state_size ∧
      4 * rng_rng_init_int_size lcg_rng.state_size < lcg_rng.state_size + 4 :=
  ⟨by decide, fun _ => rfl,
   (rng_rng_init_buffer_covers_state le_uint_bytes lcg_rng bit_rng (by decide)
      (fun _ => rfl)).2.2.1,
   (rng_rng_init_buffer_covers_state le_uint_bytes lcg_rng bit_rng (by decide)
      (fun _ => rfl)).2.2.2.1⟩

/-! ## The default init mode -/

/-- C16: `INIT_DEFAULT` is accepted by `rng_alloc` only.  `rng_alloc` for
`MZRAN` with `INIT_DEFAULT` returns the handle `rng_alloc__` builds, whatever
the entropy sources; its result is not the result of `rng_init` with
`INIT_DEFAULT` on any handle, since `rng_init` with `INIT_DEFAULT` on any handle,
the one just built included, ends in the abort `InvalidInitMode`, raised by the
`default:` branch of the `switch` before `set_state`. -/
theorem init_default_accepted_by_rng_alloc_only {σ : Type} (mz : mzran_backend σ)
    (env : entropy_env) (rng : rng_type σ) :
    let built := rng_alloc__ mz.mzran_alloc mz.mzran_forward mz.mzran_set_state
      mz.mzran_fscanf_state mz.mzran_fprintf_state rng_alg_type.MZRAN
      mz.MZRAN_STATE_SIZE mz.MZRAN_MAX_VALUE
    rng_alloc mz env rng_alg_type.MZRAN rng_init_mode.INIT_DEFAULT = Except.ok built ∧
      (∀ h : rng_type σ,
        rng_alloc mz env rng_alg_type.MZRAN rng_init_mode.INIT_DEFAULT ≠
          rng_init env h rng_init_mode.INIT_DEFAULT) ∧
      rng_init env rng rng_init_mode.INIT_DEFAULT =
        Except.error rng_error.InvalidInitMode ∧
      rng_init env built rng_init_mode.INIT_DEFAULT =
        Except.error rng_error.InvalidInitMode ∧
      rng_init_seed_buffer env rng.state_size rng_init_mode.INIT_DEFAULT =
        Except.error rng_error.InvalidInitMode ∧
      ∀ set_state : σ → List Nat → σ,
        rng_init env { rng with set_state := set_state } rng_init_mode.INIT_DEFAULT =
          Except.error rng_error.InvalidInitMode := by
  intro built
  have halloc : rng_alloc mz env rng_alg_type.MZRAN rng_init_mode.INIT_DEFAULT =
      Except.ok built := by
    simp only [rng_alloc, ne_eq, not_true_eq_false, if_false]
  refine ⟨halloc, ?_, rfl, rfl, rfl, fun _ => rfl⟩
  intro h heq
  rw [halloc] at heq
  cases heq

end Rng
